import Mathlib

/-!
Verification of the BEM time-marching simulator in `assigment1.py`.

The script advances a three-bladed rotor in fixed time steps: per step it
updates the pitch schedule and blade azimuths, transforms the free-stream
wind into the blade-element frame, computes relative velocities, inflow
angle, angle of attack, dynamic-stall separation state, loads, the Prandtl
tip factor, quasi-steady induced velocities and the dynamic-wake filter,
then integrates loads radially into thrust and power.

The embedding below translates the script into Lean over the reals.
Machine floats are modelled as real numbers; the airfoil polar lookup
(`force_coeffs_10MW`, an external collaborator per the design document)
and the blade geometry table (`bladedat.txt`, runtime data) are
parameters of the simulation.  All angles are radians unless the name
carries `_deg`, as in the script.
-/

namespace Assignment1

noncomputable section

open Real

/-- Degrees to radians, as `np.deg2rad`. -/
def deg2rad (x : ℝ) : ℝ := x * Real.pi / 180

/-- Radians to degrees, as `np.rad2deg`. -/
def rad2deg (x : ℝ) : ℝ := x * 180 / Real.pi

/-- Number of blades (`B = 3`). -/
def B : ℕ := 3

/-- Hub height in metres (`H = 119`). -/
def H : ℝ := 119

/-- Shaft length in metres (`L_s = 7.1`). -/
def L_s : ℝ := 7.1

/-- Rotor radius in metres (`R = 89.17`). -/
def R : ℝ := 89.17

/-- Cone angle (`theta_cone = 0`). -/
def theta_cone : ℝ := 0

/-- Yaw angle (`theta_yaw = np.deg2rad(0)`). -/
def theta_yaw : ℝ := deg2rad 0

/-- Tilt angle (`theta_tilt = 0`). -/
def theta_tilt : ℝ := 0

/-- Air density (`rho = 1.225`). -/
def rho : ℝ := 1.225

/-- Rotor speed in rad/s (`omega = 7.229*2*np.pi/60`). -/
def omega : ℝ := 7.229 * 2 * Real.pi / 60

/-- Time step in seconds (`delta_t = 0.15`). -/
def delta_t : ℝ := 0.15

/-- Mean wind speed at hub height (`V_0 = 9`). -/
def V_0 : ℝ := 9

/-- Dynamic wake filter constant (`k_dwf = 0.6`). -/
def k_dwf : ℝ := 0.6

/-- Wind-shear exponent selected by the `use_wind_shear` flag. -/
def wind_shear (use_ws : Bool) : ℝ := if use_ws then 0.2 else 0

/-- Elapsed simulated time at step `n` (`time_arr[n] = n*delta_t`). -/
def time_arr (n : ℕ) : ℝ := n * delta_t

/-- A 3-vector, as the numpy length-3 arrays of the script. -/
structure Vec3 where
  x : ℝ
  y : ℝ
  z : ℝ

/-- Componentwise sum of 3-vectors. -/
def Vec3.add (a b : Vec3) : Vec3 := ⟨a.x + b.x, a.y + b.y, a.z + b.z⟩

/-- A 3x3 matrix, row major, as the numpy 3x3 arrays of the script. -/
structure Mat3 where
  m00 : ℝ
  m01 : ℝ
  m02 : ℝ
  m10 : ℝ
  m11 : ℝ
  m12 : ℝ
  m20 : ℝ
  m21 : ℝ
  m22 : ℝ

/-- Matrix-vector product (`A @ v`). -/
def Mat3.mulVec (A : Mat3) (v : Vec3) : Vec3 :=
  ⟨A.m00 * v.x + A.m01 * v.y + A.m02 * v.z,
   A.m10 * v.x + A.m11 * v.y + A.m12 * v.z,
   A.m20 * v.x + A.m21 * v.y + A.m22 * v.z⟩

/-- Matrix-matrix product (`A @ C`). -/
def Mat3.mul (A C : Mat3) : Mat3 :=
  ⟨A.m00 * C.m00 + A.m01 * C.m10 + A.m02 * C.m20,
   A.m00 * C.m01 + A.m01 * C.m11 + A.m02 * C.m21,
   A.m00 * C.m02 + A.m01 * C.m12 + A.m02 * C.m22,
   A.m10 * C.m00 + A.m11 * C.m10 + A.m12 * C.m20,
   A.m10 * C.m01 + A.m11 * C.m11 + A.m12 * C.m21,
   A.m10 * C.m02 + A.m11 * C.m12 + A.m12 * C.m22,
   A.m20 * C.m00 + A.m21 * C.m10 + A.m22 * C.m20,
   A.m20 * C.m01 + A.m21 * C.m11 + A.m22 * C.m21,
   A.m20 * C.m02 + A.m21 * C.m12 + A.m22 * C.m22⟩

/-- Matrix transpose (`np.transpose`). -/
def Mat3.transpose (A : Mat3) : Mat3 :=
  ⟨A.m00, A.m10, A.m20, A.m01, A.m11, A.m21, A.m02, A.m12, A.m22⟩

/-- Yaw rotation matrix `a1`. -/
def a1 : Mat3 :=
  ⟨1, 0, 0,
   0, Real.cos theta_yaw, Real.sin theta_yaw,
   0, -Real.sin theta_yaw, Real.cos theta_yaw⟩

/-- Tilt rotation matrix `a2`. -/
def a2 : Mat3 :=
  ⟨Real.cos theta_tilt, 0, -Real.sin theta_tilt,
   0, 1, 0,
   Real.sin theta_tilt, 0, Real.cos theta_tilt⟩

/-- Identity matrix `a3`. -/
def a3 : Mat3 := ⟨1, 0, 0, 0, 1, 0, 0, 0, 1⟩

/-- Transform from system 1 to system 2 (`a12 = a3 @ a2 @ a1`). -/
def a12 : Mat3 := (a3.mul a2).mul a1

/-- Inverse transform (`a21 = np.transpose(a12)`). -/
def a21 : Mat3 := a12.transpose

/-- Cone rotation matrix `a34`. -/
def a34 : Mat3 :=
  ⟨Real.cos theta_cone, 0, -Real.sin theta_cone,
   0, 1, 0,
   Real.sin theta_cone, 0, Real.cos theta_cone⟩

/-- Tower-top position `rt1 = [H, 0, 0]`. -/
def rt1 : Vec3 := ⟨H, 0, 0⟩

/-- Shaft vector in system 1 (`rs1 = a21 @ [0, 0, -L_s]`). -/
def rs1 : Vec3 := a21.mulVec ⟨0, 0, -L_s⟩

/-- Azimuth rotation matrix `a23`, built per blade and step. -/
def a23 (theta : ℝ) : Mat3 :=
  ⟨Real.cos theta, Real.sin theta, 0,
   -Real.sin theta, Real.cos theta, 0,
   0, 0, 1⟩

/-- Transform into the blade-element frame (`a14 = a34 @ a23 @ a12`). -/
def a14 (theta : ℝ) : Mat3 := (a34.mul (a23 theta)).mul a12

/-- Inverse transform (`a41 = np.transpose(a14)`). -/
def a41 (theta : ℝ) : Mat3 := (a14 theta).transpose

/-- Blade-element offset in system 1 (`rb1 = a41 @ [r_k, 0, 0]`). -/
def rb1 (theta rk : ℝ) : Vec3 := (a41 theta).mulVec ⟨rk, 0, 0⟩

/-- Element position in the ground frame (`r1 = rt1 + rs1 + rb1`). -/
def r1 (theta rk : ℝ) : Vec3 := (rt1.add rs1).add (rb1 theta rk)

/-- Ground-frame x coordinate (height) of an element (`x1_arr`). -/
def x1_arr (theta rk : ℝ) : ℝ := (r1 theta rk).x

/-- Sheared free-stream wind in the ground frame
(`V0_array = [0, 0, V_0 * (x1/H)**wind_shear]`). -/
def V0_array (shear x1v : ℝ) : Vec3 := ⟨0, 0, V_0 * (x1v / H) ^ shear⟩

/-- Free-stream wind in the blade-element frame (`V0_4 = a14 @ V0_array`). -/
def V0_4 (theta shear rk : ℝ) : Vec3 :=
  (a14 theta).mulVec (V0_array shear (x1_arr theta rk))

/-- Azimuth history of blade 0: starts at zero, advanced by
`omega * delta_t` each step. -/
def theta_blade0 : ℕ → ℝ
  | 0 => 0
  | n + 1 => theta_blade0 n + omega * delta_t

/-- Blade azimuth array `theta_blade_arr[i, n]`.  At step 0 blades 1 and 2
are offset by `2*np.pi/3` and `4*np.pi/3`; inside the loop blade `i >= 1`
is set to `theta_blade_arr[0, n] + omega*delta_t + 0.666*np.pi`
(respectively `1.333*np.pi`), exactly as the script writes it. -/
def theta_blade_arr (i : Fin 3) : ℕ → ℝ
  | 0 => if i.val = 1 then 2 * Real.pi / 3 else if i.val = 2 then 4 * Real.pi / 3 else 0
  | n + 1 =>
    if i.val = 0 then theta_blade0 (n + 1)
    else if i.val = 1 then theta_blade0 (n + 1) + omega * delta_t + 0.666 * Real.pi
    else theta_blade0 (n + 1) + omega * delta_t + 1.333 * Real.pi

/-- Pitch angle sequence: `theta_pitch` starts at 0; inside the loop, when
`use_pitch` is set, it becomes 2 degrees while `100 <= time <= 150`, is
reset to 0 for `time > 150`, and is otherwise left at its previous value. -/
def theta_pitch_seq (use_pitch : Bool) : ℕ → ℝ
  | 0 => 0
  | n + 1 =>
    if use_pitch then
      if 100 ≤ time_arr (n + 1) ∧ time_arr (n + 1) ≤ 150 then deg2rad 2
      else if 150 < time_arr (n + 1) then 0
      else theta_pitch_seq use_pitch n
    else theta_pitch_seq use_pitch n

/-- One row of the interpolated polar lookup `force_coeffs_10MW` (an
external collaborator: given angle of attack in degrees and thickness
ratio it returns six interpolated coefficients). -/
structure Polar where
  cl : ℝ
  cd : ℝ
  cm : ℝ
  f_stat : ℝ
  cl_inv : ℝ
  cl_fs : ℝ

/-- One row of the blade geometry table `bladedat.txt`
(`r, beta_deg, c, tc = airfoils.T`). -/
structure ElemGeom where
  r : ℝ
  beta_deg : ℝ
  c : ℝ
  tc : ℝ

/-- The per-element, per-blade state carried from step `n-1` to step `n`:
the induced-velocity variants `W*_arr` and the separation state `fs_arr`. -/
structure ElemState where
  Wy : ℝ
  Wz : ℝ
  Wy_qs : ℝ
  Wz_qs : ℝ
  Wy_int : ℝ
  Wz_int : ℝ
  fs : ℝ

/-- Everything an inner-loop iteration computes for one element of one
blade at one step: the next carried state plus the stored and local
quantities (`V_rel_*`, `phi`, `aoa_deg`, the polar row used, `cl_arr`,
lift, drag, `pt_arr`, `pn_arr`, the Prandtl factor and `V_f_W`). -/
structure ElemOut where
  state : ElemState
  V_rel_y : ℝ
  V_rel_z : ℝ
  phi : ℝ
  aoa_deg : ℝ
  pol : Polar
  V_rel_abs : ℝ
  cl : ℝ
  l : ℝ
  d : ℝ
  pt : ℝ
  pn : ℝ
  F : ℝ
  V_f_W : ℝ

/-- Inflow angle as the script computes it:
`phi = np.arctan(V_rel_z/(-V_rel_y))`. -/
def phi_of (v_rel_y v_rel_z : ℝ) : ℝ := Real.arctan (v_rel_z / (-v_rel_y))

/-- Prandtl tip correction factor: `F = 1` when `sin(abs(phi)) <= 0.01`
or `R - r <= 0.005`, otherwise
`F = (2/pi) * arccos(exp(-(B/2) * (R-r)/(r*sin(abs(phi)))))`. -/
def F_prandtl (phi rk : ℝ) : ℝ :=
  if Real.sin |phi| ≤ 0.01 ∨ R - rk ≤ 0.005 then 1
  else (2 / Real.pi) *
    Real.arccos (Real.exp (-((B : ℝ) / 2) * ((R - rk) / (rk * Real.sin |phi|))))

/-- Modelled from the spec: the two-argument arctangent referred to by the
specification as the atan2-style arctangent, returning the angle of the
point `(x, y)` over the full circle.  This definition follows the spec
rather than the script (the script calls the one-argument `np.arctan`);
it exists only to be compared with `phi_of`. -/
def atan2 (y x : ℝ) : ℝ :=
  if 0 < x then Real.arctan (y / x)
  else if x < 0 then
    (if 0 ≤ y then Real.arctan (y / x) + Real.pi else Real.arctan (y / x) - Real.pi)
  else (if 0 < y then Real.pi / 2 else if y < 0 then -Real.pi / 2 else 0)

/-- The inner-loop body of the script for one blade element (lines of
`assigment1.py` from `V_rel_y_arr[...] = ...` through the dynamic-wake
update), as a pure function of the previous state, the frame-resolved
free stream, the pitch angle and the polar lookup at this element.
`tip` holds exactly when `k == len(airfoils) - 1`; arrays the script
leaves unwritten in a disabled branch keep their zero initialization. -/
def elementStep (use_stall use_dwf : Bool) (g : ElemGeom) (tip : Bool)
    (coeffsAt : ℝ → Polar) (theta_pitch V0y V0z : ℝ) (prev : ElemState) : ElemOut :=
  let V_rel_y := V0y + prev.Wy - omega * g.r * Real.cos theta_cone
  let V_rel_z := V0z + prev.Wz
  let phi := phi_of V_rel_y V_rel_z
  let aoa_deg := rad2deg phi - (g.beta_deg + rad2deg theta_pitch)
  let p := coeffsAt aoa_deg
  let V_rel_abs := Real.sqrt (V_rel_y ^ 2 + V_rel_z ^ 2)
  let fs_new :=
    if use_stall then
      p.f_stat + (prev.fs - p.f_stat) * Real.exp (-delta_t / (4 * g.c / V_rel_abs))
    else 0
  let cl_new :=
    if use_stall then p.f_stat * p.cl_inv + (1 - fs_new) * p.cl_fs else p.cl
  let a := -prev.Wz / V_0
  let f_g := if a ≤ 0.33 then (1 : ℝ) else 0.25 * (5 - 3 * a)
  let V_f_W := Real.sqrt (V0y ^ 2 + (V0z + f_g * prev.Wz) ^ 2)
  let l := 0.5 * rho * V_rel_abs ^ 2 * g.c * cl_new
  let d := 0.5 * rho * V_rel_abs ^ 2 * g.c * p.cd
  let p_z := if tip then 0 else l * Real.cos phi + d * Real.sin phi
  let p_y := if tip then 0 else l * Real.sin phi - d * Real.cos phi
  let F := F_prandtl phi g.r
  let Wz_qs := (-(B : ℝ) * l * Real.cos phi) / (4 * Real.pi * rho * g.r * F * V_f_W)
  let Wy_qs := (-(B : ℝ) * l * Real.sin phi) / (4 * Real.pi * rho * g.r * F * V_f_W)
  let tau_1 := 1.1 / (1 - 1.3 * a) * R / V_0
  let tau_2 := (0.39 - 0.26 * (g.r / R) ^ 2) * tau_1
  let Hy_dwf := Wy_qs + k_dwf * tau_1 * (Wy_qs - prev.Wy_qs) / delta_t
  let Hz_dwf := Wz_qs + k_dwf * tau_1 * (Wz_qs - prev.Wz_qs) / delta_t
  let Wy_int :=
    if use_dwf then Hy_dwf + (prev.Wy_int - Hy_dwf) * Real.exp (-delta_t / tau_1) else 0
  let Wz_int :=
    if use_dwf then Hz_dwf + (prev.Wz_int - Hz_dwf) * Real.exp (-delta_t / tau_1) else 0
  let Wy_new :=
    if use_dwf then Wy_int + (prev.Wy - Wy_int) * Real.exp (-delta_t / tau_2) else Wy_qs
  let Wz_new :=
    if use_dwf then Wz_int + (prev.Wz - Wz_int) * Real.exp (-delta_t / tau_2) else Wz_qs
  ⟨⟨Wy_new, Wz_new, Wy_qs, Wz_qs, Wy_int, Wz_int, fs_new⟩,
   V_rel_y, V_rel_z, phi, aoa_deg, p, V_rel_abs, cl_new, l, d, p_y, p_z, F, V_f_W⟩

/-- The inner-loop body at step `n` for blade `i`, element `k`: resolves
the sheared free stream through `a14` at the blade azimuth and applies
`elementStep`.  The geometry table has `m + 1` rows, so the tip test of
the script, `k == len(airfoils) - 1`, is `k.val == m`. -/
def stepAt (up us ud uw : Bool) (m : ℕ) (geom : Fin (m + 1) → ElemGeom)
    (coeffs : ℝ → ℝ → Polar) (n : ℕ) (i : Fin 3) (k : Fin (m + 1))
    (prev : ElemState) : ElemOut :=
  elementStep us ud (geom k) (k.val == m) (fun aoa => coeffs aoa (geom k).tc)
    (theta_pitch_seq up n)
    (V0_4 (theta_blade_arr i n) (wind_shear uw) (geom k).r).y
    (V0_4 (theta_blade_arr i n) (wind_shear uw) (geom k).r).z
    prev

/-- The carried state of every element of every blade after step `n`;
step 0 is the all-zero initial condition of the arrays. -/
def simState (up us ud uw : Bool) (m : ℕ) (geom : Fin (m + 1) → ElemGeom)
    (coeffs : ℝ → ℝ → Polar) : ℕ → Fin 3 → Fin (m + 1) → ElemState
  | 0, _, _ => ⟨0, 0, 0, 0, 0, 0, 0⟩
  | n + 1, i, k =>
    (stepAt up us ud uw m geom coeffs (n + 1) i k
      (simState up us ud uw m geom coeffs n i k)).state

/-- Everything the inner loop computes at step `n` (meaningful for
`n >= 1`, matching the loop `for n in range(1, timerange)`). -/
def simOut (up us ud uw : Bool) (m : ℕ) (geom : Fin (m + 1) → ElemGeom)
    (coeffs : ℝ → ℝ → Polar) (n : ℕ) (i : Fin 3) (k : Fin (m + 1)) : ElemOut :=
  stepAt up us ud uw m geom coeffs n i k
    (simState up us ud uw m geom coeffs (n - 1) i k)

/-- Composite trapezoidal rule over tabulated points, as `np.trapz(y, x)`. -/
def trapz {msize : ℕ} (y x : Fin (msize + 1) → ℝ) : ℝ :=
  ∑ j : Fin msize, (y j.succ + y j.castSucc) / 2 * (x j.succ - x j.castSucc)

/-- Per-blade thrust `T_all_arr[i, n] = np.trapz(pn_arr[:, i, n], r)`. -/
def T_all_arr (up us ud uw : Bool) (m : ℕ) (geom : Fin (m + 1) → ElemGeom)
    (coeffs : ℝ → ℝ → Polar) (n : ℕ) (i : Fin 3) : ℝ :=
  trapz (fun k => (simOut up us ud uw m geom coeffs n i k).pn) (fun k => (geom k).r)

/-- Total thrust `T_arr[n] = np.trapz(np.sum(pn_arr, axis=1)[:, n], r)`. -/
def T_arr (up us ud uw : Bool) (m : ℕ) (geom : Fin (m + 1) → ElemGeom)
    (coeffs : ℝ → ℝ → Polar) (n : ℕ) : ℝ :=
  trapz (fun k => ∑ i : Fin 3, (simOut up us ud uw m geom coeffs n i k).pn)
    (fun k => (geom k).r)

/-! ### Accessor lemmas: what each stored field of an inner-loop
iteration unfolds to. -/

lemma simState_succ (up us ud uw : Bool) (m : ℕ) (geom : Fin (m + 1) → ElemGeom)
    (coeffs : ℝ → ℝ → Polar) (n : ℕ) (i : Fin 3) (k : Fin (m + 1)) :
    simState up us ud uw m geom coeffs (n + 1) i k =
      (simOut up us ud uw m geom coeffs (n + 1) i k).state := rfl

lemma elementStep_V_rel_y (us ud : Bool) (g : ElemGeom) (tip : Bool)
    (cA : ℝ → Polar) (tp vy vz : ℝ) (prev : ElemState) :
    (elementStep us ud g tip cA tp vy vz prev).V_rel_y =
      vy + prev.Wy - omega * g.r * Real.cos theta_cone := rfl

lemma elementStep_V_rel_z (us ud : Bool) (g : ElemGeom) (tip : Bool)
    (cA : ℝ → Polar) (tp vy vz : ℝ) (prev : ElemState) :
    (elementStep us ud g tip cA tp vy vz prev).V_rel_z = vz + prev.Wz := rfl

lemma elementStep_phi (us ud : Bool) (g : ElemGeom) (tip : Bool)
    (cA : ℝ → Polar) (tp vy vz : ℝ) (prev : ElemState) :
    (elementStep us ud g tip cA tp vy vz prev).phi =
      phi_of (elementStep us ud g tip cA tp vy vz prev).V_rel_y
        (elementStep us ud g tip cA tp vy vz prev).V_rel_z := rfl

lemma elementStep_F (us ud : Bool) (g : ElemGeom) (tip : Bool)
    (cA : ℝ → Polar) (tp vy vz : ℝ) (prev : ElemState) :
    (elementStep us ud g tip cA tp vy vz prev).F =
      F_prandtl (elementStep us ud g tip cA tp vy vz prev).phi g.r := rfl

lemma elementStep_V_rel_abs (us ud : Bool) (g : ElemGeom) (tip : Bool)
    (cA : ℝ → Polar) (tp vy vz : ℝ) (prev : ElemState) :
    (elementStep us ud g tip cA tp vy vz prev).V_rel_abs =
      Real.sqrt ((elementStep us ud g tip cA tp vy vz prev).V_rel_y ^ 2 +
        (elementStep us ud g tip cA tp vy vz prev).V_rel_z ^ 2) := rfl

lemma elementStep_l (us ud : Bool) (g : ElemGeom) (tip : Bool)
    (cA : ℝ → Polar) (tp vy vz : ℝ) (prev : ElemState) :
    (elementStep us ud g tip cA tp vy vz prev).l =
      0.5 * rho * (elementStep us ud g tip cA tp vy vz prev).V_rel_abs ^ 2 * g.c *
        (elementStep us ud g tip cA tp vy vz prev).cl := rfl

lemma elementStep_V_f_W (us ud : Bool) (g : ElemGeom) (tip : Bool)
    (cA : ℝ → Polar) (tp vy vz : ℝ) (prev : ElemState) :
    (elementStep us ud g tip cA tp vy vz prev).V_f_W =
      Real.sqrt (vy ^ 2 +
        (vz + (if -prev.Wz / V_0 ≤ 0.33 then (1 : ℝ) else 0.25 * (5 - 3 * (-prev.Wz / V_0))) *
          prev.Wz) ^ 2) := rfl

lemma elementStep_Wz_qs (us ud : Bool) (g : ElemGeom) (tip : Bool)
    (cA : ℝ → Polar) (tp vy vz : ℝ) (prev : ElemState) :
    (elementStep us ud g tip cA tp vy vz prev).state.Wz_qs =
      (-(B : ℝ) * (elementStep us ud g tip cA tp vy vz prev).l *
          Real.cos (elementStep us ud g tip cA tp vy vz prev).phi) /
        (4 * Real.pi * rho * g.r * (elementStep us ud g tip cA tp vy vz prev).F *
          (elementStep us ud g tip cA tp vy vz prev).V_f_W) := rfl

lemma elementStep_cl_no_stall (ud : Bool) (g : ElemGeom) (tip : Bool)
    (cA : ℝ → Polar) (tp vy vz : ℝ) (prev : ElemState) :
    (elementStep false ud g tip cA tp vy vz prev).cl =
      (cA (elementStep false ud g tip cA tp vy vz prev).aoa_deg).cl := rfl

/-! ### Properties of the Prandtl factor. -/

lemma F_prandtl_one (phi rk : ℝ)
    (h : Real.sin |phi| ≤ 0.01 ∨ R - rk ≤ 0.005) : F_prandtl phi rk = 1 := by
  unfold F_prandtl
  exact if_pos h

lemma F_prandtl_formula (phi rk : ℝ)
    (h : ¬(Real.sin |phi| ≤ 0.01 ∨ R - rk ≤ 0.005)) :
    F_prandtl phi rk = (2 / Real.pi) *
      Real.arccos (Real.exp (-((B : ℝ) / 2) * ((R - rk) / (rk * Real.sin |phi|)))) := by
  unfold F_prandtl
  exact if_neg h

lemma F_prandtl_mem (phi rk : ℝ) (hr : 0 < rk) :
    F_prandtl phi rk ∈ Set.Ioc (0 : ℝ) 1 := by
  rw [Set.mem_Ioc]
  unfold F_prandtl
  by_cases hc : Real.sin |phi| ≤ 0.01 ∨ R - rk ≤ 0.005
  · rw [if_pos hc]
    exact ⟨one_pos, le_refl 1⟩
  · rw [if_neg hc]
    push_neg at hc
    obtain ⟨hs, ht⟩ := hc
    have hs0 : (0 : ℝ) < Real.sin |phi| := lt_trans (by norm_num) hs
    have hrt : (0 : ℝ) < R - rk := lt_trans (by norm_num) ht
    have hx : (0 : ℝ) < ((B : ℝ) / 2) * ((R - rk) / (rk * Real.sin |phi|)) := by
      have h1 : (0 : ℝ) < (R - rk) / (rk * Real.sin |phi|) :=
        div_pos hrt (mul_pos hr hs0)
      have h2 : (0 : ℝ) < (B : ℝ) / 2 := by norm_num [B]
      exact mul_pos h2 h1
    have hexp1 : Real.exp (-((B : ℝ) / 2) * ((R - rk) / (rk * Real.sin |phi|))) < 1 := by
      rw [Real.exp_lt_one_iff]
      linarith
    have hexp0 : (0 : ℝ) ≤
        Real.exp (-((B : ℝ) / 2) * ((R - rk) / (rk * Real.sin |phi|))) :=
      le_of_lt (Real.exp_pos _)
    refine ⟨mul_pos (div_pos two_pos Real.pi_pos) (Real.arccos_pos.mpr hexp1), ?_⟩
    have harc := Real.arccos_le_pi_div_two.mpr hexp0
    have h2pi : (0 : ℝ) ≤ 2 / Real.pi := le_of_lt (div_pos two_pos Real.pi_pos)
    have hle := mul_le_mul_of_nonneg_left harc h2pi
    have hone : (2 / Real.pi) * (Real.pi / 2) = 1 := by
      field_simp
    linarith

/-- Claim C3: at every step, for every blade and element with positive
radial station, the Prandtl factor lies in `(0, 1]`, equals exactly 1
when `sin(abs(phi)) <= 0.01` or the element is within `0.005` of the
rotor radius, and otherwise equals
`(2/pi) * arccos(exp(-(B/2) * (R-r)/(r*sin(abs(phi)))))`. -/
theorem C3_prandtl_factor (up us ud uw : Bool) (m : ℕ)
    (geom : Fin (m + 1) → ElemGeom) (coeffs : ℝ → ℝ → Polar)
    (n : ℕ) (i : Fin 3) (k : Fin (m + 1)) (hr : 0 < (geom k).r) :
    (simOut up us ud uw m geom coeffs (n + 1) i k).F ∈ Set.Ioc (0 : ℝ) 1 ∧
    (Real.sin |(simOut up us ud uw m geom coeffs (n + 1) i k).phi| ≤ 0.01 ∨
        R - (geom k).r ≤ 0.005 →
      (simOut up us ud uw m geom coeffs (n + 1) i k).F = 1) ∧
    (¬(Real.sin |(simOut up us ud uw m geom coeffs (n + 1) i k).phi| ≤ 0.01 ∨
        R - (geom k).r ≤ 0.005) →
      (simOut up us ud uw m geom coeffs (n + 1) i k).F = (2 / Real.pi) *
        Real.arccos (Real.exp (-((B : ℝ) / 2) * ((R - (geom k).r) /
          ((geom k).r * Real.sin |(simOut up us ud uw m geom coeffs (n + 1) i k).phi|))))) := by
  have hF : (simOut up us ud uw m geom coeffs (n + 1) i k).F =
      F_prandtl (simOut up us ud uw m geom coeffs (n + 1) i k).phi (geom k).r := rfl
  rw [hF]
  exact ⟨F_prandtl_mem _ _ hr,
    fun h => F_prandtl_one _ _ h,
    fun h => F_prandtl_formula _ _ h⟩

/-- Witness for C3 at a concrete configuration: a one-element geometry
table with radial station 1. -/
def geom1 : Fin 1 → ElemGeom := fun _ => ⟨1, 0, 1, 0⟩

/-- Polar lookup returning all-zero coefficients, for witnesses. -/
def coeffs0 : ℝ → ℝ → Polar := fun _ _ => ⟨0, 0, 0, 0, 0, 0⟩

theorem C3_prandtl_factor_witness :
    0 < (geom1 0).r ∧
    ((simOut false false false false 0 geom1 coeffs0 1 0 0).F ∈ Set.Ioc (0 : ℝ) 1 ∧
    (Real.sin |(simOut false false false false 0 geom1 coeffs0 1 0 0).phi| ≤ 0.01 ∨
        R - (geom1 0).r ≤ 0.005 →
      (simOut false false false false 0 geom1 coeffs0 1 0 0).F = 1) ∧
    (¬(Real.sin |(simOut false false false false 0 geom1 coeffs0 1 0 0).phi| ≤ 0.01 ∨
        R - (geom1 0).r ≤ 0.005) →
      (simOut false false false false 0 geom1 coeffs0 1 0 0).F = (2 / Real.pi) *
        Real.arccos (Real.exp (-((B : ℝ) / 2) * ((R - (geom1 0).r) /
          ((geom1 0).r * Real.sin |(simOut false false false false 0 geom1 coeffs0 1 0 0).phi|)))))) :=
  ⟨by norm_num [geom1],
   C3_prandtl_factor false false false false 0 geom1 coeffs0 0 0 0 (by norm_num [geom1])⟩

/-- Claim C2: at every step `n >= 1`, for every blade, the stored normal
and tangential load of the outermost (tip) blade element is exactly zero:
the script overwrites `p_z` and `p_y` with 0 when `k == len(airfoils)-1`
before storing them in `pn_arr` and `pt_arr`. -/
theorem C2_tip_load_zero (up us ud uw : Bool) (m : ℕ)
    (geom : Fin (m + 1) → ElemGeom) (coeffs : ℝ → ℝ → Polar)
    (n : ℕ) (i : Fin 3) :
    (simOut up us ud uw m geom coeffs (n + 1) i (Fin.last m)).pn = 0 ∧
    (simOut up us ud uw m geom coeffs (n + 1) i (Fin.last m)).pt = 0 := by
  constructor <;> simp [simOut, stepAt, elementStep]

/-- Claim C5: with dynamic stall enabled, at every step `n >= 1` the
separation state decays exponentially toward the current static
separation fraction with time constant `4 * chord / |V_rel|`, and the
lift coefficient used is
`f_stat * cl_inv + (1 - fs[n]) * cl_fs`. -/
theorem C5_dynamic_stall (up ud uw : Bool) (m : ℕ)
    (geom : Fin (m + 1) → ElemGeom) (coeffs : ℝ → ℝ → Polar)
    (n : ℕ) (i : Fin 3) (k : Fin (m + 1)) :
    (simOut up true ud uw m geom coeffs (n + 1) i k).state.fs =
      (simOut up true ud uw m geom coeffs (n + 1) i k).pol.f_stat +
        ((simState up true ud uw m geom coeffs n i k).fs -
            (simOut up true ud uw m geom coeffs (n + 1) i k).pol.f_stat) *
          Real.exp (-delta_t /
            (4 * (geom k).c / (simOut up true ud uw m geom coeffs (n + 1) i k).V_rel_abs)) ∧
    (simOut up true ud uw m geom coeffs (n + 1) i k).cl =
      (simOut up true ud uw m geom coeffs (n + 1) i k).pol.f_stat *
          (simOut up true ud uw m geom coeffs (n + 1) i k).pol.cl_inv +
        (1 - (simOut up true ud uw m geom coeffs (n + 1) i k).state.fs) *
          (simOut up true ud uw m geom coeffs (n + 1) i k).pol.cl_fs :=
  ⟨rfl, rfl⟩

/-- Claim C6: with the dynamic-wake filter disabled, at every step
`n >= 1` both induced-velocity components equal the quasi-steady values
of the same step exactly. -/
theorem C6_no_dwf (up us uw : Bool) (m : ℕ)
    (geom : Fin (m + 1) → ElemGeom) (coeffs : ℝ → ℝ → Polar)
    (n : ℕ) (i : Fin 3) (k : Fin (m + 1)) :
    (simState up us false uw m geom coeffs (n + 1) i k).Wz =
      (simState up us false uw m geom coeffs (n + 1) i k).Wz_qs ∧
    (simState up us false uw m geom coeffs (n + 1) i k).Wy =
      (simState up us false uw m geom coeffs (n + 1) i k).Wy_qs :=
  ⟨rfl, rfl⟩

/-- Claim C7: with dynamic stall disabled, at every step `n >= 1` the
lift coefficient used for the loads is exactly the raw static lookup
value at the angle of attack of that step and the element thickness
ratio. -/
theorem C7_no_stall (up ud uw : Bool) (m : ℕ)
    (geom : Fin (m + 1) → ElemGeom) (coeffs : ℝ → ℝ → Polar)
    (n : ℕ) (i : Fin 3) (k : Fin (m + 1)) :
    (simOut up false ud uw m geom coeffs (n + 1) i k).cl =
      (coeffs (simOut up false ud uw m geom coeffs (n + 1) i k).aoa_deg (geom k).tc).cl :=
  rfl

/-! ### Claim C4: the inflow angle is a principal-branch arctangent,
not an atan2. -/

lemma V0_4_y (theta shear rk : ℝ) : (V0_4 theta shear rk).y = 0 := by
  simp [V0_4, V0_array, a14, a34, a23, a12, a1, a2, a3, Mat3.mul, Mat3.mulVec,
    theta_yaw, theta_tilt, theta_cone, deg2rad]

/-- Counterexample for claim C4: with `V_rel_z = 1` and `V_rel_y = 1`
(so the negated in-plane component is negative), the inflow angle the
script computes differs from the atan2-style arctangent: `np.arctan`
returns `-pi/4` where atan2 returns `3*pi/4`. -/
theorem C4_phi_counterexample : phi_of 1 1 ≠ atan2 1 (-1) := by
  have h1 : phi_of 1 1 = -(Real.pi / 4) := by
    unfold phi_of
    norm_num [Real.arctan_neg, Real.arctan_one]
  have h2 : atan2 1 (-1) = -(Real.pi / 4) + Real.pi := by
    unfold atan2
    rw [if_neg (by norm_num), if_pos (by norm_num : (-1 : ℝ) < 0),
      if_pos (by norm_num : (0 : ℝ) ≤ 1)]
    norm_num [Real.arctan_neg, Real.arctan_one]
  rw [h1, h2]
  have := Real.pi_pos
  intro h
  linarith

/-- Claim C4 amended: at every step `n >= 1`, for every blade and
element, the inflow angle is the principal-branch arctangent
`arctan(V_rel_z / (-V_rel_y))` (range `(-pi/2, pi/2)`); it agrees with
the atan2-style arctangent `atan2(V_rel_z, -V_rel_y)` when the negated
in-plane relative velocity is positive (`V_rel_y < 0`), but not for
every sign combination; the angle of attack equals the inflow angle
minus (local twist + pitch), in degrees. -/
theorem C4_phi_amended (up us ud uw : Bool) (m : ℕ)
    (geom : Fin (m + 1) → ElemGeom) (coeffs : ℝ → ℝ → Polar)
    (n : ℕ) (i : Fin 3) (k : Fin (m + 1)) :
    (simOut up us ud uw m geom coeffs (n + 1) i k).phi =
      Real.arctan ((simOut up us ud uw m geom coeffs (n + 1) i k).V_rel_z /
        (-(simOut up us ud uw m geom coeffs (n + 1) i k).V_rel_y)) ∧
    (simOut up us ud uw m geom coeffs (n + 1) i k).aoa_deg =
      rad2deg (simOut up us ud uw m geom coeffs (n + 1) i k).phi -
        ((geom k).beta_deg + rad2deg (theta_pitch_seq up (n + 1))) ∧
    ((simOut up us ud uw m geom coeffs (n + 1) i k).V_rel_y < 0 →
      (simOut up us ud uw m geom coeffs (n + 1) i k).phi =
        atan2 (simOut up us ud uw m geom coeffs (n + 1) i k).V_rel_z
          (-(simOut up us ud uw m geom coeffs (n + 1) i k).V_rel_y)) := by
  refine ⟨rfl, rfl, fun hvy => ?_⟩
  have hx : 0 < -(simOut up us ud uw m geom coeffs (n + 1) i k).V_rel_y :=
    neg_pos.mpr hvy
  unfold atan2
  rw [if_pos hx]
  rfl

theorem C4_phi_amended_witness :
    (simOut false false false false 0 geom1 coeffs0 1 0 0).V_rel_y < 0 ∧
    (simOut false false false false 0 geom1 coeffs0 1 0 0).phi =
      atan2 (simOut false false false false 0 geom1 coeffs0 1 0 0).V_rel_z
        (-(simOut false false false false 0 geom1 coeffs0 1 0 0).V_rel_y) := by
  have hvy : (simOut false false false false 0 geom1 coeffs0 1 0 0).V_rel_y < 0 := by
    have h : (simOut false false false false 0 geom1 coeffs0 1 0 0).V_rel_y =
        (V0_4 (theta_blade_arr 0 1) (wind_shear false) (geom1 0).r).y + 0 -
          omega * (geom1 0).r * Real.cos theta_cone := rfl
    rw [h, V0_4_y]
    have hpi := Real.pi_pos
    simp only [geom1, theta_cone, Real.cos_zero, mul_one, zero_add, omega]
    nlinarith
  exact ⟨hvy, (C4_phi_amended false false false false 0 geom1 coeffs0 0 0 0).2.2 hvy⟩

/-! ### Claim C1: the loop breaks the 2*pi/3 azimuth spacing. -/

lemma theta_blade_arr_zero_blade (n : ℕ) : theta_blade_arr 0 n = theta_blade0 n := by
  cases n <;> simp [theta_blade_arr, theta_blade0]

/-- Claim C1 (code bug): blade 0 is indeed advanced by
`omega * delta_t` each step, but for every step `n >= 1` the loop sets
blade 1 (and blade 2) to blade 0 plus `omega*delta_t + 0.666*pi`
(respectively `omega*delta_t + 1.333*pi`), so the azimuth difference
exceeds the fixed phase offset `2*pi/3` (respectively `4*pi/3`) that the
step-0 initialization uses by more than 0.1 rad - far beyond numerical
tolerance. -/
theorem C1_azimuth_offset :
    (∀ n : ℕ,
      theta_blade_arr 0 (n + 1) = theta_blade_arr 0 n + omega * delta_t ∧
      theta_blade_arr 1 (n + 1) - theta_blade_arr 0 (n + 1) =
        omega * delta_t + 0.666 * Real.pi ∧
      theta_blade_arr 2 (n + 1) - theta_blade_arr 0 (n + 1) =
        omega * delta_t + 1.333 * Real.pi) ∧
    (omega * delta_t + 0.666 * Real.pi) - 2 * Real.pi / 3 > 1 / 10 ∧
    (omega * delta_t + 1.333 * Real.pi) - 4 * Real.pi / 3 > 1 / 10 := by
  refine ⟨fun n => ⟨?_, ?_, ?_⟩, ?_, ?_⟩
  · rw [theta_blade_arr_zero_blade, theta_blade_arr_zero_blade]
    rfl
  · rw [theta_blade_arr_zero_blade]
    simp [theta_blade_arr]
    ring
  · rw [theta_blade_arr_zero_blade]
    simp [theta_blade_arr]
    ring
  · unfold omega delta_t
    nlinarith [Real.pi_gt_three]
  · unfold omega delta_t
    nlinarith [Real.pi_gt_three]

/-- Claim C8: the pitch angle applied at step `n` is a pure function of
the elapsed time `n * delta_t`: with pitch control enabled it is 2
degrees while `100 <= n*delta_t <= 150` and 0 outside that window (the
carried-over initial value is 0 before the window, and the explicit
reset keeps it 0 after); with pitch control disabled it is always 0. -/
theorem C8_pitch_schedule (n : ℕ) :
    theta_pitch_seq true n =
      (if 100 ≤ time_arr n ∧ time_arr n ≤ 150 then deg2rad 2 else 0) ∧
    theta_pitch_seq false n = 0 := by
  induction n with
  | zero =>
    refine ⟨?_, rfl⟩
    rw [if_neg]
    · rfl
    · rintro ⟨hc, -⟩
      rw [time_arr] at hc
      norm_num at hc
  | succ n ih =>
    constructor
    · by_cases h1 : 100 ≤ time_arr (n + 1) ∧ time_arr (n + 1) ≤ 150
      · rw [theta_pitch_seq]
        simp only [if_true]
        rw [if_pos h1, if_pos h1]
      · by_cases h2 : 150 < time_arr (n + 1)
        · rw [theta_pitch_seq]
          simp only [if_true]
          rw [if_neg h1, if_pos h2, if_neg h1]
        · have hle : time_arr (n + 1) ≤ 150 := not_lt.mp h2
          have h100 : ¬(100 ≤ time_arr (n + 1)) := fun hc => h1 ⟨hc, hle⟩
          have hmono : time_arr n ≤ time_arr (n + 1) := by
            unfold time_arr delta_t
            push_cast
            nlinarith [Nat.cast_nonneg (α := ℝ) n]
          have hprev : ¬(100 ≤ time_arr n ∧ time_arr n ≤ 150) := by
            rintro ⟨hc, -⟩
            exact h100 (le_trans hc hmono)
          rw [theta_pitch_seq]
          simp only [if_true]
          rw [if_neg h1, if_neg h2, ih.1, if_neg hprev, if_neg h1]
    · rw [theta_pitch_seq]
      simp only [Bool.false_eq_true, if_false]
      exact ih.2

/-- Claim C9: at every step `n >= 1`, the total thrust (trapezoidal
radial integral of the blade-summed normal load) equals the sum of the
three per-blade thrusts, by linearity of the trapezoidal rule. -/
theorem C9_thrust_sum (up us ud uw : Bool) (m : ℕ)
    (geom : Fin (m + 1) → ElemGeom) (coeffs : ℝ → ℝ → Polar) (n : ℕ) :
    T_arr up us ud uw m geom coeffs (n + 1) =
      T_all_arr up us ud uw m geom coeffs (n + 1) 0 +
        T_all_arr up us ud uw m geom coeffs (n + 1) 1 +
        T_all_arr up us ud uw m geom coeffs (n + 1) 2 := by
  unfold T_arr T_all_arr trapz
  rw [← Finset.sum_add_distrib, ← Finset.sum_add_distrib]
  refine Finset.sum_congr rfl fun j _ => ?_
  simp only [Fin.sum_univ_three]
  ring

/-! ### Claim C10: the tip quasi-steady induced velocity uses the
un-zeroed lift. -/

lemma V0_4_z_shear_zero (theta rk : ℝ) : (V0_4 theta 0 rk).z = V_0 := by
  simp [V0_4, V0_array, a14, a34, a23, a12, a1, a2, a3, Mat3.mul, Mat3.mulVec,
    theta_yaw, theta_tilt, theta_cone, deg2rad, Real.rpow_zero]

/-- One-element geometry table whose single station sits at the rotor
radius, used for the concrete tip instance of C10. -/
def geomTip : Fin 1 → ElemGeom := fun _ => ⟨R, 0, 1, 0⟩

/-- Polar lookup returning all-one coefficients, used for the concrete
tip instance of C10. -/
def coeffs1 : ℝ → ℝ → Polar := fun _ _ => ⟨1, 1, 1, 1, 1, 1⟩

/-- Claim C10: at every step `n >= 1` and every blade, the quasi-steady
induced velocity of the tip element is computed from the un-zeroed lift
`l` as `-B*l*cos(phi)/(4*pi*rho*r*F*V_f_W)` (and with `sin(phi)` for the
in-plane component), not from the stored loads that were forced to zero;
concretely there is a configuration in which the stored tip normal load
is zero while the tip quasi-steady induced velocity is not. -/
theorem C10_tip_induction :
    (∀ (up us ud uw : Bool) (m : ℕ) (geom : Fin (m + 1) → ElemGeom)
        (coeffs : ℝ → ℝ → Polar) (n : ℕ) (i : Fin 3),
      (simOut up us ud uw m geom coeffs (n + 1) i (Fin.last m)).pn = 0 ∧
      (simOut up us ud uw m geom coeffs (n + 1) i (Fin.last m)).state.Wz_qs =
        (-(B : ℝ) * (simOut up us ud uw m geom coeffs (n + 1) i (Fin.last m)).l *
            Real.cos (simOut up us ud uw m geom coeffs (n + 1) i (Fin.last m)).phi) /
          (4 * Real.pi * rho * (geom (Fin.last m)).r *
            (simOut up us ud uw m geom coeffs (n + 1) i (Fin.last m)).F *
            (simOut up us ud uw m geom coeffs (n + 1) i (Fin.last m)).V_f_W) ∧
      (simOut up us ud uw m geom coeffs (n + 1) i (Fin.last m)).state.Wy_qs =
        (-(B : ℝ) * (simOut up us ud uw m geom coeffs (n + 1) i (Fin.last m)).l *
            Real.sin (simOut up us ud uw m geom coeffs (n + 1) i (Fin.last m)).phi) /
          (4 * Real.pi * rho * (geom (Fin.last m)).r *
            (simOut up us ud uw m geom coeffs (n + 1) i (Fin.last m)).F *
            (simOut up us ud uw m geom coeffs (n + 1) i (Fin.last m)).V_f_W)) ∧
    ((simOut false false false false 0 geomTip coeffs1 1 0 0).pn = 0 ∧
      (simOut false false false false 0 geomTip coeffs1 1 0 0).state.Wz_qs ≠ 0) := by
  constructor
  · intro up us ud uw m geom coeffs n i
    refine ⟨?_, rfl, rfl⟩
    simp [simOut, stepAt, elementStep]
  · constructor
    · simp [simOut, stepAt, elementStep]
    · have hvy : (simOut false false false false 0 geomTip coeffs1 1 0 0).V_rel_y =
          -(omega * R) := by
        have h : (simOut false false false false 0 geomTip coeffs1 1 0 0).V_rel_y =
            (V0_4 (theta_blade_arr 0 1) (wind_shear false) (geomTip 0).r).y + 0 -
              omega * (geomTip 0).r * Real.cos theta_cone := rfl
        rw [h, V0_4_y]
        simp [geomTip, theta_cone]
      have hvz : (simOut false false false false 0 geomTip coeffs1 1 0 0).V_rel_z = 9 := by
        have h : (simOut false false false false 0 geomTip coeffs1 1 0 0).V_rel_z =
            (V0_4 (theta_blade_arr 0 1) (wind_shear false) (geomTip 0).r).z + 0 := rfl
        rw [h, show wind_shear false = (0 : ℝ) from rfl, V0_4_z_shear_zero]
        norm_num [V_0]
      have hphi : (simOut false false false false 0 geomTip coeffs1 1 0 0).phi =
          Real.arctan (9 / (omega * R)) := by
        have h : (simOut false false false false 0 geomTip coeffs1 1 0 0).phi =
            phi_of (simOut false false false false 0 geomTip coeffs1 1 0 0).V_rel_y
              (simOut false false false false 0 geomTip coeffs1 1 0 0).V_rel_z := rfl
        rw [h, hvy, hvz]
        unfold phi_of
        norm_num
      have hcos : 0 < Real.cos (simOut false false false false 0 geomTip coeffs1 1 0 0).phi := by
        rw [hphi]
        exact Real.cos_arctan_pos _
      have habs : (simOut false false false false 0 geomTip coeffs1 1 0 0).V_rel_abs ^ 2 =
          (omega * R) ^ 2 + 81 := by
        have h : (simOut false false false false 0 geomTip coeffs1 1 0 0).V_rel_abs =
            Real.sqrt ((simOut false false false false 0 geomTip coeffs1 1 0 0).V_rel_y ^ 2 +
              (simOut false false false false 0 geomTip coeffs1 1 0 0).V_rel_z ^ 2) := rfl
        rw [h, hvy, hvz, Real.sq_sqrt (by positivity)]
        ring
      have hl : 0 < (simOut false false false false 0 geomTip coeffs1 1 0 0).l := by
        have h : (simOut false false false false 0 geomTip coeffs1 1 0 0).l =
            0.5 * rho * (simOut false false false false 0 geomTip coeffs1 1 0 0).V_rel_abs ^ 2 *
              (geomTip 0).c * (simOut false false false false 0 geomTip coeffs1 1 0 0).cl := rfl
        have hcl : (simOut false false false false 0 geomTip coeffs1 1 0 0).cl = 1 := rfl
        rw [h, hcl, habs]
        simp only [geomTip]
        norm_num [rho]
        positivity
      have hF1 : (simOut false false false false 0 geomTip coeffs1 1 0 0).F = 1 := by
        have h : (simOut false false false false 0 geomTip coeffs1 1 0 0).F =
            F_prandtl (simOut false false false false 0 geomTip coeffs1 1 0 0).phi
              (geomTip 0).r := rfl
        rw [h]
        apply F_prandtl_one
        right
        simp [geomTip]
        norm_num
      have hVfW : (simOut false false false false 0 geomTip coeffs1 1 0 0).V_f_W = 9 := by
        have h : (simOut false false false false 0 geomTip coeffs1 1 0 0).V_f_W =
            Real.sqrt ((V0_4 (theta_blade_arr 0 1) (wind_shear false) (geomTip 0).r).y ^ 2 +
              ((V0_4 (theta_blade_arr 0 1) (wind_shear false) (geomTip 0).r).z +
                (if -(0 : ℝ) / V_0 ≤ 0.33 then (1 : ℝ)
                 else 0.25 * (5 - 3 * (-(0 : ℝ) / V_0))) * 0) ^ 2) := rfl
        rw [h, V0_4_y, show wind_shear false = (0 : ℝ) from rfl, V0_4_z_shear_zero,
          mul_zero, add_zero,
          show (0 : ℝ) ^ 2 + V_0 ^ 2 = 9 ^ 2 by norm_num [V_0]]
        exact Real.sqrt_sq (by norm_num)
      have hq : (simOut false false false false 0 geomTip coeffs1 1 0 0).state.Wz_qs =
          (-(B : ℝ) * (simOut false false false false 0 geomTip coeffs1 1 0 0).l *
              Real.cos (simOut false false false false 0 geomTip coeffs1 1 0 0).phi) /
            (4 * Real.pi * rho * (geomTip 0).r *
              (simOut false false false false 0 geomTip coeffs1 1 0 0).F *
              (simOut false false false false 0 geomTip coeffs1 1 0 0).V_f_W) := rfl
      have hneg : (simOut false false false false 0 geomTip coeffs1 1 0 0).state.Wz_qs < 0 := by
        rw [hq, hF1, hVfW]
        apply div_neg_of_neg_of_pos
        · have hB3 : ((B : ℕ) : ℝ) = 3 := by norm_num [B]
          rw [hB3]
          nlinarith
        · simp only [geomTip]
          have := Real.pi_pos
          norm_num [rho, R]
          positivity
      exact ne_of_lt hneg

end

end Assignment1
